import Mathlib

/-!
Verification of the ACL Anthology downloader
(`src/acl/ACLAnthology_downloader.py`) against its natural-language
specification.

Strings are modelled as `List Char` (one entry per Unicode code point,
matching Python's `str`).  The script's pure helpers (`generate_url`,
`format_title`, the slash replacement in `download`) are translated
directly; the stateful `download` method is translated into an explicit
state-passing interpreter over a DOM snapshot, an HTTP oracle and a
filesystem map, with Python's name-binding semantics for the loop-carried
locals `title` and `file_id` made explicit (`none` = unbound name, whose
use raises a `NameError` that the bare `except:` of the source turns into
an `error.log` write).
-/

namespace ACLAnthology

/-- A Python `str`, modelled code point by code point. -/
abbrev Str := List Char

/-! ## Title handling (source lines 69–71 and 110–112) -/

/-- Source lines 70–71: `if "/" in title: title = title.replace("/", "_")`.
The pattern is a single character, so `str.replace` is a character map. -/
def pyReplaceSlash (title : Str) : Str :=
  if '/' ∈ title then title.map (fun c => if c = '/' then '_' else c) else title

/-- Modelled from Python stdlib `unicodedata.normalize("NFKC", ...)`,
restricted to a per-character compatibility table that is faithful for the
characters exercised in this development: U+FF0F FULLWIDTH SOLIDUS has the
singleton compatibility decomposition `/` (Unicode `<wide>` mapping); every
ASCII character is NFKC-invariant, which the identity default captures. -/
def nfkcChar (c : Char) : List Char :=
  if c = '／' then ['/'] else [c]

/-- `unicodedata.normalize("NFKC", s)` under the character table above. -/
def nfkc (s : Str) : Str := (s.map nfkcChar).flatten

/-- `.encode("ascii", "ignore").decode("ascii")` (source line 111): keep
exactly the code points below 128. -/
def asciiIgnore (s : Str) : Str := s.filter (fun c => c.toNat < 128)

/-- Source lines 110–112 (`format_title`): NFKC-normalize, then drop every
non-ASCII code point. -/
def format_title (title : Str) : Str := asciiIgnore (nfkc title)

/-- The full sanitization pipeline applied to a raw title during a run:
slash replacement at extraction time (lines 70–71) followed by
`format_title` (line 83). -/
def sanitize (title : Str) : Str := format_title (pyReplaceSlash title)

/-! ## URL building (source lines 106–108) -/

/-- Python `str.lower()`.  The model lowercases the ASCII range (`Char.toLower`),
which agrees with Python on every event name exercised here. -/
def pyLower (s : Str) : Str := s.map Char.toLower

/-- Source lines 106–108: the f-string
`https://aclweb.org/anthology/events/{event_name.lower()}-{year}/`. -/
def generate_url (event_name year : Str) : Str :=
  ("https://aclweb.org/anthology/events/".data) ++ pyLower event_name
    ++ ("-".data) ++ year ++ ("/".data)

/-! ## `pathlib.Path(url).stem` (source line 82) -/

/-- Index of the last occurrence of `c`, if any. -/
def lastIdxOf (c : Char) : Str → Option Nat
  | [] => none
  | x :: xs =>
    match lastIdxOf c xs with
    | some i => some (i + 1)
    | none => if x = c then some 0 else none

/-- `PurePosixPath(url).name`: the last nonempty `/`-separated segment. -/
def lastSeg (u : Str) : Str :=
  ((u.splitOn '/').filter (fun s => !s.isEmpty)).getLastD []

/-- `pathlib` stem of a file name: strip the last `.`-suffix when the last
dot is neither leading nor trailing. -/
def pyStem (n : Str) : Str :=
  match lastIdxOf '.' n with
  | some i => if 0 < i ∧ i < n.length - 1 then n.take i else n
  | none => n

/-! ## Helper lemmas about the sanitizer -/

/-- The slash replacement never leaves a literal `/` behind. -/
lemma no_slash_pyReplaceSlash (t : Str) : '/' ∉ pyReplaceSlash t := by
  by_cases h : '/' ∈ t
  · simp only [pyReplaceSlash, if_pos h, List.mem_map]
    rintro ⟨c, -, hc⟩
    by_cases hc' : c = '/' <;> simp [hc'] at hc
  · simpa [pyReplaceSlash, if_neg h] using h

/-- Everything the ASCII filter keeps is ASCII. -/
lemma mem_asciiIgnore_ascii (s : Str) : ∀ c ∈ asciiIgnore s, c.toNat < 128 := by
  intro c hc
  have := (List.mem_filter.mp hc).2
  simpa using this

/-- Every character of a sanitized title is ASCII. -/
lemma mem_sanitize_ascii (t : Str) : ∀ c ∈ sanitize t, c.toNat < 128 :=
  mem_asciiIgnore_ascii _

/-- The NFKC table is the identity on ASCII characters. -/
lemma nfkcChar_ascii (c : Char) (h : c.toNat < 128) : nfkcChar c = [c] := by
  have : c ≠ '／' := by
    intro hc; subst hc; simp at h
  simp [nfkcChar, this]

/-- NFKC is the identity on ASCII strings (in the modelled table). -/
lemma nfkc_ascii (s : Str) (h : ∀ c ∈ s, c.toNat < 128) : nfkc s = s := by
  induction s with
  | nil => rfl
  | cons c cs ih =>
    have hc : c.toNat < 128 := h c (by simp)
    have hcs : ∀ x ∈ cs, x.toNat < 128 := fun x hx => h x (by simp [hx])
    simp [nfkc, nfkcChar_ascii c hc]
    simpa [nfkc] using ih hcs

/-- The ASCII filter is the identity on ASCII strings. -/
lemma asciiIgnore_ascii (s : Str) (h : ∀ c ∈ s, c.toNat < 128) :
    asciiIgnore s = s := by
  apply List.filter_eq_self.mpr
  intro c hc
  simpa using h c hc

/-- The slash replacement is the identity on slash-free strings. -/
lemma pyReplaceSlash_no_slash (s : Str) (h : '/' ∉ s) : pyReplaceSlash s = s := by
  simp [pyReplaceSlash, h]

/-! ## Claims C8, C9, C10 -/

/-- Claim C8, counterexample: the raw title consisting of the single
character U+FF0F FULLWIDTH SOLIDUS contains no literal `/`, so the slash
replacement leaves it alone, but NFKC maps it to `/`, which is ASCII and
survives the filter: the sanitized fragment contains a `/`. -/
theorem sanitize_slash_counterexample : '/' ∈ sanitize ['／'] := by decide

/-- Claim C8, amended: for every raw title the sanitized fragment contains
only ASCII characters; the slash-replacement stage removes every literal
`/`, and the fragment is slash-free whenever the NFKC normalization of the
slash-replaced title reintroduces no `/` (compatibility characters such as
U+FF0F can reintroduce one). -/
theorem sanitize_ascii_and_slash (title : Str) :
    '/' ∉ pyReplaceSlash title
    ∧ (∀ c ∈ sanitize title, c.toNat < 128)
    ∧ ('/' ∉ nfkc (pyReplaceSlash title) → '/' ∉ sanitize title) := by
  refine ⟨no_slash_pyReplaceSlash title, mem_sanitize_ascii title, ?_⟩
  intro h hmem
  exact h (List.mem_filter.mp hmem).1

/-- Witness for `sanitize_ascii_and_slash` at the concrete title `a/b`. -/
theorem sanitize_ascii_and_slash_witness :
    '/' ∉ nfkc (pyReplaceSlash ("a/b".data))
    ∧ '/' ∉ sanitize ("a/b".data) :=
  ⟨by decide, (sanitize_ascii_and_slash ("a/b".data)).2.2 (by decide)⟩

/-- Claim C9, counterexample: sanitizing U+FF0F yields `/`, and sanitizing
that output again turns the `/` into `_`: the pipeline is not idempotent. -/
theorem sanitize_not_idempotent :
    sanitize (sanitize ['／']) ≠ sanitize ['／'] := by decide

/-- Claim C9, amended: the sanitization pipeline is idempotent on every
title whose sanitized form contains no `/` (the only characters the
replacement stage can still change on a second pass); in particular
re-sanitizing any already-sanitized slash-free string returns it unchanged. -/
theorem sanitize_idempotent_of_no_slash (title : Str)
    (h : '/' ∉ sanitize title) :
    sanitize (sanitize title) = sanitize title := by
  have hascii := mem_sanitize_ascii title
  calc sanitize (sanitize title)
      = format_title (sanitize title) := by
        rw [sanitize, pyReplaceSlash_no_slash _ h]
    _ = asciiIgnore (sanitize title) := by
        rw [format_title, nfkc_ascii _ hascii]
    _ = sanitize title := asciiIgnore_ascii _ hascii

/-- Witness for `sanitize_idempotent_of_no_slash` at the concrete title `ab`. -/
theorem sanitize_idempotent_witness :
    '/' ∉ sanitize ("ab".data)
    ∧ sanitize (sanitize ("ab".data)) = sanitize ("ab".data) :=
  ⟨by decide, sanitize_idempotent_of_no_slash ("ab".data) (by decide)⟩

/-- Claim C10: `generate_url` produces exactly the fixed template with the
event name lowercased and the year inserted verbatim, and in particular
`ACL`/`2020` yields `https://aclweb.org/anthology/events/acl-2020/`. -/
theorem generate_url_template :
    (∀ e y : Str, generate_url e y =
      ("https://aclweb.org/anthology/events/".data) ++ pyLower e
        ++ ("-".data) ++ y ++ ("/".data))
    ∧ generate_url ("ACL".data) ("2020".data) =
      ("https://aclweb.org/anthology/events/acl-2020/".data) :=
  ⟨fun _ _ => rfl, by decide⟩

/-! ## The `download` method (source lines 49–104)

The DOM snapshot the browser would return is given as data: one `Block`
per `<p class='d-sm-flex align-items-stretch'>` element, holding the texts
of its title links and the (label text, href) pairs of its badge links.
HTTP is an oracle `Str → Response` (`requests.get` modelled as returning a
status and body).  The filesystem is an association list path ↦ bytes.
`time.sleep(1)` has no observable state and is not modelled. -/

/-- One badge link inside an entry block (label text and `href`). -/
structure PdfElem where
  text : Str
  href : Str
deriving DecidableEq

/-- One entry block: its title-link texts and its badge links. -/
structure Block where
  titleElems : List Str
  pdfElems : List PdfElem
deriving DecidableEq

/-- A `requests.get` result: HTTP status code and body bytes. -/
structure Response where
  status_code : Nat
  content : List Nat
deriving DecidableEq

/-- The loop-carried Python locals `title` and `file_id`; `none` means the
name is unbound (using it raises `NameError`). -/
structure Locals where
  title : Option Str
  file_id : Option Str
deriving DecidableEq

/-- The observable state threaded through the entry loop: the output
directory's files, the in-memory `titles` dict, the console lines from
failed downloads (line 92), whether `error.log` was written by the bare
`except:` (lines 98–100), and the URLs fetched over the network. -/
structure RunState where
  files : List (Str × List Nat)
  titles : List (Str × Str)
  failLog : List (Str × Nat)
  errorLog : Bool
  gets : List Str
deriving DecidableEq

/-- Lookup in a Python-dict association list (keys unique). -/
def dictGet {α : Type} : List (Str × α) → Str → Option α
  | [], _ => none
  | (k', v) :: rest, k => if k' = k then some v else dictGet rest k

/-- Python `d[k] = v`: replace in place if the key exists, append otherwise. -/
def dictUpdate {α : Type} : List (Str × α) → Str → α → List (Str × α)
  | [], k, v => [(k, v)]
  | (k', v') :: rest, k, v =>
    if k' = k then (k', v) :: rest else (k', v') :: dictUpdate rest k v

/-- Source line 84: `output_dir_path / f"{file_id}-{title_format}.pdf"`. -/
def targetPath (outDir fid titleFormat : Str) : Str :=
  outDir ++ ("/".data) ++ fid ++ ("-".data) ++ titleFormat ++ (".pdf".data)

/-- Source lines 93–95, the unconditional tail of the badge loop:
`time.sleep(1); titles[file_id] = title`.  Executed for every badge element,
whatever its label; raises `NameError` (the `error` branch) when either
loop-carried name is still unbound. -/
def finishEntry (l : Locals) (s : RunState) :
    Except (Locals × RunState) (Locals × RunState) :=
  match l.file_id, l.title with
  | some fid, some t => .ok (l, { s with titles := dictUpdate s.titles fid t })
  | _, _ => .error (l, s)

/-- Source lines 85–92: the existence check, the GET and the write/log. -/
def fetchEntry (outDir : Str) (http : Str → Response) (url fid t : Str)
    (s : RunState) : RunState :=
  let output_fn := targetPath outDir fid (format_title t)
  if (dictGet s.files output_fn).isSome then s
  else
    let s0 := { s with gets := s.gets ++ [url] }
    let response := http url
    if response.status_code = 200 then
      { s0 with files := dictUpdate s0.files output_fn response.content }
    else
      { s0 with failLog := s0.failLog ++ [(url, response.status_code)] }

/-- Source lines 77–95, the body of `for pdf_elem in pdf_elem_list`.
Inside the `if pdf_elem.text == "pdf"` branch the verbose print (line 81)
reads `title` before `file_id` is assigned (line 82), and
`format_title(title)` (line 83) reads it after; a `NameError` at either
point aborts the block with the locals mutated so far. -/
def stepPdf (verbose : Bool) (outDir : Str) (http : Str → Response)
    (l : Locals) (s : RunState) (pe : PdfElem) :
    Except (Locals × RunState) (Locals × RunState) :=
  if pe.text = ("pdf".data) then
    if verbose && l.title.isNone then .error (l, s)
    else
      match l.title with
      | none => .error (⟨none, some (pyStem (lastSeg pe.href))⟩, s)
      | some t =>
        finishEntry ⟨some t, some (pyStem (lastSeg pe.href))⟩
          (fetchEntry outDir http pe.href (pyStem (lastSeg pe.href)) t s)
  else
    finishEntry l s

/-- The badge loop over one block's `pdf_elem_list`, stopping at the first
exception. -/
def stepPdfList (verbose : Bool) (outDir : Str) (http : Str → Response) :
    Locals → RunState → List PdfElem →
    Except (Locals × RunState) (Locals × RunState)
  | l, s, [] => .ok (l, s)
  | l, s, pe :: rest =>
    match stepPdf verbose outDir http l s pe with
    | .ok (l', s') => stepPdfList verbose outDir http l' s' rest
    | .error e => .error e

/-- Source lines 65–71, the title loop: `title` ends up bound to the
slash-replaced text of the last title element, and keeps its previous
(possibly unbound) value when the block has no title element. -/
def titleLoop (l : Locals) (titleElems : List Str) : Locals :=
  titleElems.foldl (fun acc te => { acc with title := some (pyReplaceSlash te) }) l

/-- Source lines 63–100, one iteration of `for p_elem in p_elem_list`:
the `try:` covers the title loop and the badge loop; the bare `except:`
writes `error.log` and moves on to the next block.  (The
`except TimeoutException:` arm is unreachable here: no call inside the
`try` waits, see `runDownload` for the actual wait.) -/
def processBlock (verbose : Bool) (outDir : Str) (http : Str → Response)
    (acc : Locals × RunState) (b : Block) : Locals × RunState :=
  let l := titleLoop acc.1 b.titleElems
  match stepPdfList verbose outDir http l acc.2 b.pdfElems with
  | .ok (l', s') => (l', s')
  | .error (l', s') => (l', { s' with errorLog := true })

/-- Python-string order: lexicographic comparison by code point, as used by
`json.dump(..., sort_keys=True)`. -/
def strLe : Str → Str → Bool
  | [], _ => true
  | _ :: _, [] => false
  | a :: as, b :: bs =>
    if a < b then true
    else if b < a then false
    else strLe as bs

/-- Insert one pair into a key-sorted pair list. -/
def insortKey (p : Str × Str) : List (Str × Str) → List (Str × Str)
  | [] => [p]
  | q :: qs => if strLe p.1 q.1 then p :: q :: qs else q :: insortKey p qs

/-- Source line 101: `json.dump(titles, ..., ensure_ascii=False, indent=4,
sort_keys=True)` — the serialized object is the dict's pairs sorted by key,
values kept verbatim (`ensure_ascii=False` leaves non-ASCII text unescaped). -/
def metaJson (d : List (Str × Str)) : List (Str × Str) := d.foldr insortKey []

/-- The rendered listing page: the entry blocks in DOM order, plus the set
of anchor hrefs that appear within the 30-second wait window. -/
structure Page where
  blocks : List Block
  anchors : List Str
deriving DecidableEq

/-- Everything observable about one `download(...)` call.  `fatal` records
an uncaught exception escaping the method; `meta` is the content of
`meta.json` if it was written; `driverQuit` records whether line 104
(`self.driver.quit()`) ran. -/
structure RunOutput where
  fatal : Bool
  files : List (Str × List Nat)
  titlesDict : List (Str × Str)
  meta : Option (List (Str × Str))
  errorLog : Bool
  gets : List Str
  failLog : List (Str × Nat)
  driverQuit : Bool
deriving DecidableEq

/-- Source lines 61–104 after a successful page load: the entry loop, the
`meta.json` dump, and `driver.quit()`. -/
def runBody (verbose : Bool) (outDir : Str) (http : Str → Response)
    (fs0 : List (Str × List Nat)) (blocks : List Block) : RunOutput :=
  let init : RunState := ⟨fs0, [], [], false, []⟩
  let r := blocks.foldl (processBlock verbose outDir http) (⟨none, none⟩, init)
  { fatal := false, files := r.2.files, titlesDict := r.2.titles,
    meta := some (metaJson r.2.titles), errorLog := r.2.errorLog,
    gets := r.2.gets, failLog := r.2.failLog, driverQuit := true }

/-- Source lines 49–104, `download`: the optional
`WebDriverWait(self.driver, 30).until(...)` on lines 56–59 sits *outside*
the per-block `try`, so when the configured bottom anchor never appears the
`TimeoutException` propagates out of `download` uncaught: no extraction, no
`meta.json`, and `driver.quit()` on line 104 never runs. -/
def runDownload (verbose : Bool) (bottomLink : Option Str) (page : Page)
    (http : Str → Response) (fs0 : List (Str × List Nat)) (outDir : Str) :
    RunOutput :=
  match bottomLink with
  | some bl =>
    if bl ∈ page.anchors then runBody verbose outDir http fs0 page.blocks
    else
      { fatal := true, files := fs0, titlesDict := [], meta := none,
        errorLog := false, gets := [], failLog := [], driverQuit := false }
  | none => runBody verbose outDir http fs0 page.blocks

/-! ## Claims C1 – C6 -/

/-- Claim C1, counterexample: in a run whose first block has a badge
labelled `pdf` but no title element (so `file_id` is assigned `A` before
the `NameError` on the unbound `title` aborts that block), the second block
yields the title `T2` and has only a `bib` badge — no `pdf`-labelled link —
yet its processing executes `titles[file_id] = title` with the stale
`file_id` and adds the key `A` to the metadata index: alone, the first
block contributes no key at all. -/
theorem title_without_pdf_adds_stale_key :
    (runDownload false none
      (Page.mk
        [Block.mk [] [PdfElem.mk ("pdf".data) ("http://x/A.pdf".data)],
         Block.mk [("T2".data)] [PdfElem.mk ("bib".data) ("http://x/A.bib".data)]]
        [])
      (fun _ => Response.mk 200 []) [] ("out".data)).titlesDict
      = [(("A".data), ("T2".data))]
    ∧ (runDownload false none
      (Page.mk
        [Block.mk [] [PdfElem.mk ("pdf".data) ("http://x/A.pdf".data)]] [])
      (fun _ => Response.mk 200 []) [] ("out".data)).titlesDict
      = [] := by decide

/-- Claim C1, amended: a block with no badge-link elements at all is truly
skipped — processing it (beyond rebinding the loop-carried `title`) leaves
the whole run state unchanged: no file write, no index key, no error.  A
titled block whose badge links merely lack the `pdf` label still runs the
bookkeeping line once per badge with the stale `file_id`, and so can add or
overwrite an index entry (or record a `NameError` in `error.log`). -/
theorem block_without_links_skipped (verbose : Bool) (outDir : Str)
    (http : Str → Response) (l : Locals) (s : RunState) (tes : List Str) :
    processBlock verbose outDir http (l, s) (Block.mk tes []) =
      (titleLoop l tes, s) := by
  simp [processBlock, stepPdfList]

/-- Claim C2, counterexample: a single well-formed entry (title `T`, badge
`pdf` → `http://x/A.pdf`) whose target file does not exist and whose GET
returns 404 still ends the run with `A ↦ T` in `meta.json` — the
index-update line sits after the download conditional, not inside it. -/
theorem failed_download_still_indexed :
    (runDownload false none
      (Page.mk [Block.mk [("T".data)]
        [PdfElem.mk ("pdf".data) ("http://x/A.pdf".data)]] [])
      (fun _ => Response.mk 404 []) [] ("out".data))
    = RunOutput.mk false [] [(("A".data), ("T".data))]
        (some [(("A".data), ("T".data))]) false [("http://x/A.pdf".data)]
        [(("http://x/A.pdf".data), 404)] true := by decide

/-- Claim C2, amended: for every entry whose target file does not exist and
whose GET returns a non-200 status, the entry's fileId is *included* in the
metadata index all the same — the `titles[file_id] = title` line runs after
every processed badge element regardless of download outcome — while no
file is written. -/
theorem non200_entry_still_indexed (verbose : Bool) (outDir : Str)
    (http : Str → Response) (l : Locals) (s : RunState) (pe : PdfElem) (t : Str)
    (hpdf : pe.text = ("pdf".data))
    (ht : l.title = some t)
    (hnew : dictGet s.files
      (targetPath outDir (pyStem (lastSeg pe.href)) (format_title t)) = none)
    (hfail : (http pe.href).status_code ≠ 200) :
    stepPdf verbose outDir http l s pe =
      .ok (⟨some t, some (pyStem (lastSeg pe.href))⟩,
        { s with
            gets := s.gets ++ [pe.href],
            failLog := s.failLog ++ [(pe.href, (http pe.href).status_code)],
            titles := dictUpdate s.titles (pyStem (lastSeg pe.href)) t }) := by
  simp [stepPdf, hpdf, ht, fetchEntry, hnew, if_neg hfail, finishEntry]

/-- Witness for `non200_entry_still_indexed` on a concrete 404 entry. -/
theorem non200_entry_still_indexed_witness :
    (PdfElem.mk ("pdf".data) ("http://x/A.pdf".data)).text = ("pdf".data)
    ∧ (Locals.mk (some ("T".data)) none).title = some ("T".data)
    ∧ dictGet (RunState.mk [] [] [] false []).files
        (targetPath ("out".data)
          (pyStem (lastSeg ("http://x/A.pdf".data)))
          (format_title ("T".data))) = none
    ∧ ((fun _ => Response.mk 404 []) ("http://x/A.pdf".data)).status_code ≠ 200
    ∧ stepPdf false ("out".data) (fun _ => Response.mk 404 [])
        (Locals.mk (some ("T".data)) none) (RunState.mk [] [] [] false [])
        (PdfElem.mk ("pdf".data) ("http://x/A.pdf".data)) =
      .ok (⟨some ("T".data), some (pyStem (lastSeg ("http://x/A.pdf".data)))⟩,
        { RunState.mk [] [] [] false [] with
            gets := [] ++ [("http://x/A.pdf".data)],
            failLog := [] ++ [(("http://x/A.pdf".data), 404)],
            titles := dictUpdate []
              (pyStem (lastSeg ("http://x/A.pdf".data))) ("T".data) }) :=
  ⟨rfl, rfl, by decide, by decide,
    non200_entry_still_indexed false ("out".data) (fun _ => Response.mk 404 [])
      (Locals.mk (some ("T".data)) none) (RunState.mk [] [] [] false [])
      (PdfElem.mk ("pdf".data) ("http://x/A.pdf".data)) ("T".data)
      rfl rfl (by decide) (by decide)⟩

/-- Claim C3 (confirmed): when the target path already holds a file, the
entry triggers no network fetch (`gets` unchanged) and no file change
(`files` unchanged); the only effect is `titles[file_id] = title`. -/
theorem existing_file_skips_fetch (verbose : Bool) (outDir : Str)
    (http : Str → Response) (l : Locals) (s : RunState) (pe : PdfElem)
    (t : Str) (body : List Nat)
    (hpdf : pe.text = ("pdf".data))
    (ht : l.title = some t)
    (hex : dictGet s.files
      (targetPath outDir (pyStem (lastSeg pe.href)) (format_title t)) = some body) :
    stepPdf verbose outDir http l s pe =
      .ok (⟨some t, some (pyStem (lastSeg pe.href))⟩,
        { s with titles := dictUpdate s.titles (pyStem (lastSeg pe.href)) t }) := by
  simp [stepPdf, hpdf, ht, fetchEntry, hex, finishEntry]

/-- Witness for `existing_file_skips_fetch` on a concrete pre-existing file. -/
theorem existing_file_skips_fetch_witness :
    (PdfElem.mk ("pdf".data) ("http://x/A.pdf".data)).text = ("pdf".data)
    ∧ (Locals.mk (some ("T".data)) none).title = some ("T".data)
    ∧ dictGet (RunState.mk [(("out/A-T.pdf".data), [7])] [] [] false []).files
        (targetPath ("out".data)
          (pyStem (lastSeg ("http://x/A.pdf".data)))
          (format_title ("T".data))) = some [7]
    ∧ stepPdf false ("out".data) (fun _ => Response.mk 200 [])
        (Locals.mk (some ("T".data)) none)
        (RunState.mk [(("out/A-T.pdf".data), [7])] [] [] false [])
        (PdfElem.mk ("pdf".data) ("http://x/A.pdf".data)) =
      .ok (⟨some ("T".data), some (pyStem (lastSeg ("http://x/A.pdf".data)))⟩,
        { RunState.mk [(("out/A-T.pdf".data), [7])] [] [] false [] with
            titles := dictUpdate []
              (pyStem (lastSeg ("http://x/A.pdf".data))) ("T".data) }) :=
  ⟨rfl, rfl, by decide,
    existing_file_skips_fetch false ("out".data) (fun _ => Response.mk 200 [])
      (Locals.mk (some ("T".data)) none)
      (RunState.mk [(("out/A-T.pdf".data), [7])] [] [] false [])
      (PdfElem.mk ("pdf".data) ("http://x/A.pdf".data)) ("T".data) [7]
      rfl rfl (by decide)⟩

/-- Claim C4 (confirmed): for an entry whose target file does not exist, a
200 response creates the target file with byte content exactly the response
body, and any other status logs the URL with the status code, creates no
file, and raises no exception (the step returns normally either way). -/
theorem fresh_entry_download_behavior (verbose : Bool) (outDir : Str)
    (http : Str → Response) (l : Locals) (s : RunState) (pe : PdfElem) (t : Str)
    (hpdf : pe.text = ("pdf".data))
    (ht : l.title = some t)
    (hnew : dictGet s.files
      (targetPath outDir (pyStem (lastSeg pe.href)) (format_title t)) = none) :
    ((http pe.href).status_code = 200 →
      stepPdf verbose outDir http l s pe =
        .ok (⟨some t, some (pyStem (lastSeg pe.href))⟩,
          { s with
              gets := s.gets ++ [pe.href],
              files := dictUpdate s.files
                (targetPath outDir (pyStem (lastSeg pe.href)) (format_title t))
                (http pe.href).content,
              titles := dictUpdate s.titles (pyStem (lastSeg pe.href)) t }))
    ∧ ((http pe.href).status_code ≠ 200 →
      stepPdf verbose outDir http l s pe =
        .ok (⟨some t, some (pyStem (lastSeg pe.href))⟩,
          { s with
              gets := s.gets ++ [pe.href],
              failLog := s.failLog ++ [(pe.href, (http pe.href).status_code)],
              titles := dictUpdate s.titles (pyStem (lastSeg pe.href)) t })) := by
  constructor
  · intro h200
    simp [stepPdf, hpdf, ht, fetchEntry, hnew, h200, finishEntry]
  · intro hfail
    simp [stepPdf, hpdf, ht, fetchEntry, hnew, if_neg hfail, finishEntry]

/-- Witness for `fresh_entry_download_behavior`: a concrete 200 download
writing the body `[9, 8]` to the target path. -/
theorem fresh_entry_download_behavior_witness :
    (PdfElem.mk ("pdf".data) ("http://x/A.pdf".data)).text = ("pdf".data)
    ∧ (Locals.mk (some ("T".data)) none).title = some ("T".data)
    ∧ dictGet (RunState.mk [] [] [] false []).files
        (targetPath ("out".data)
          (pyStem (lastSeg ("http://x/A.pdf".data)))
          (format_title ("T".data))) = none
    ∧ ((fun _ => Response.mk 200 [9, 8]) ("http://x/A.pdf".data)).status_code = 200
    ∧ stepPdf false ("out".data) (fun _ => Response.mk 200 [9, 8])
        (Locals.mk (some ("T".data)) none) (RunState.mk [] [] [] false [])
        (PdfElem.mk ("pdf".data) ("http://x/A.pdf".data)) =
      .ok (⟨some ("T".data), some (pyStem (lastSeg ("http://x/A.pdf".data)))⟩,
        { RunState.mk [] [] [] false [] with
            gets := [] ++ [("http://x/A.pdf".data)],
            files := dictUpdate []
              (targetPath ("out".data)
                (pyStem (lastSeg ("http://x/A.pdf".data)))
                (format_title ("T".data))) [9, 8],
            titles := dictUpdate []
              (pyStem (lastSeg ("http://x/A.pdf".data))) ("T".data) }) :=
  ⟨rfl, rfl, by decide, by decide,
    (fresh_entry_download_behavior false ("out".data)
      (fun _ => Response.mk 200 [9, 8])
      (Locals.mk (some ("T".data)) none) (RunState.mk [] [] [] false [])
      (PdfElem.mk ("pdf".data) ("http://x/A.pdf".data)) ("T".data)
      rfl rfl (by decide)).1 (by decide)⟩

/-- Claim C5: the bottom-anchor wait (source lines 56–59) sits *outside*
the per-block `try`, while the `except TimeoutException:` arm (lines 96–97,
message "could not find the bottom link element") sits inside the block
loop where nothing waits — so on a configured anchor that never appears the
exception escapes `download` uncaught.  Evaluated at the failing input: the
run is fatal, no URL is fetched, no `meta.json` is written, and the driver
is never quit, where the claim (and the handler's own message) expect a
logged, recoverable condition with extraction proceeding. -/
theorem bottom_anchor_timeout_is_fatal :
    (runDownload false (some ("#bottom".data))
      (Page.mk [Block.mk [("T".data)]
        [PdfElem.mk ("pdf".data) ("u/P.pdf".data)]] [])
      (fun _ => Response.mk 200 [1]) [] ("o".data))
    = RunOutput.mk true [] [] none false [] [] false := by decide

/-- Claim C6, counterexample: on the fatal bottom-anchor-timeout path the
uncaught exception skips line 104, so the browser session is *not* closed. -/
theorem driver_not_quit_on_timeout :
    (runDownload true (some ("#never".data)) (Page.mk [] [])
      (fun _ => Response.mk 200 []) [(("f".data), [0])] ("o".data)).driverQuit
    = false := by decide

/-- Claim C6, amended: `driver.quit()` runs (exactly once, as the last
statement of `download`) on every normal completion — including runs with
per-entry failures — but on the fatal path of an uncaught bottom-anchor
timeout the session is never closed. -/
theorem driver_quit_on_normal_exit_only (verbose : Bool) (bl : Option Str)
    (page : Page) (http : Str → Response) (fs0 : List (Str × List Nat))
    (outDir : Str) :
    ((bl = none ∨ ∃ b, bl = some b ∧ b ∈ page.anchors) →
      (runDownload verbose bl page http fs0 outDir).driverQuit = true)
    ∧ ((∃ b, bl = some b ∧ b ∉ page.anchors) →
      (runDownload verbose bl page http fs0 outDir).driverQuit = false) := by
  constructor
  · rintro (rfl | ⟨b, rfl, hb⟩)
    · simp [runDownload, runBody]
    · simp [runDownload, runBody, hb]
  · rintro ⟨b, rfl, hb⟩
    simp [runDownload, hb]

/-- Witness for `driver_quit_on_normal_exit_only`: with no bottom link
configured the driver is quit; with an absent anchor it is not. -/
theorem driver_quit_on_normal_exit_only_witness :
    (runDownload false none (Page.mk [] []) (fun _ => Response.mk 200 [])
      [] ("o".data)).driverQuit = true
    ∧ (runDownload false (some ("#z".data)) (Page.mk [] [])
      (fun _ => Response.mk 200 []) [] ("o".data)).driverQuit = false :=
  ⟨(driver_quit_on_normal_exit_only false none (Page.mk [] [])
      (fun _ => Response.mk 200 []) [] ("o".data)).1 (Or.inl rfl),
   (driver_quit_on_normal_exit_only false (some ("#z".data)) (Page.mk [] [])
      (fun _ => Response.mk 200 []) [] ("o".data)).2
      ⟨("#z".data), rfl, by decide⟩⟩

/-! ## Order lemmas for the `meta.json` key sort (claim C7) -/

/-- The sort relation of `metaJson`: compare pairs by key. -/
def keyLe (p q : Str × Str) : Prop := strLe p.1 q.1 = true

lemma strLe_total (a b : Str) : strLe a b = true ∨ strLe b a = true := by
  induction a generalizing b with
  | nil => left; rfl
  | cons x xs ih =>
    cases b with
    | nil => right; rfl
    | cons y ys =>
      rcases lt_trichotomy x y with h | h | h
      · left; simp [strLe, h]
      · subst h
        rcases ih ys with h' | h'
        · left; simpa [strLe, lt_irrefl] using h'
        · right; simpa [strLe, lt_irrefl] using h'
      · right; simp [strLe, h]

lemma strLe_trans (a b c : Str) (hab : strLe a b = true) (hbc : strLe b c = true) :
    strLe a c = true := by
  induction a generalizing b c with
  | nil => rfl
  | cons x xs ih =>
    cases b with
    | nil => simp [strLe] at hab
    | cons y ys =>
      cases c with
      | nil => simp [strLe] at hbc
      | cons z zs =>
        rcases lt_trichotomy x y with hxy | hxy | hxy
        · rcases lt_trichotomy y z with hyz | hyz | hyz
          · simp [strLe, lt_trans hxy hyz]
          · subst hyz; simp [strLe, hxy]
          · simp [strLe, asymm hyz, hyz] at hbc
        · subst hxy
          simp only [strLe, lt_irrefl, if_false] at hab
          rcases lt_trichotomy x z with hyz | hyz | hyz
          · simp [strLe, hyz]
          · subst hyz
            simp only [strLe, lt_irrefl, if_false] at hbc ⊢
            exact ih ys zs hab hbc
          · simp [strLe, asymm hyz, hyz] at hbc
        · simp [strLe, asymm hxy, hxy] at hab

lemma strLe_antisymm (a b : Str) (hab : strLe a b = true) (hba : strLe b a = true) :
    a = b := by
  induction a generalizing b with
  | nil =>
    cases b with
    | nil => rfl
    | cons y ys => simp [strLe] at hba
  | cons x xs ih =>
    cases b with
    | nil => simp [strLe] at hab
    | cons y ys =>
      rcases lt_trichotomy x y with hxy | hxy | hxy
      · simp [strLe, asymm hxy, hxy] at hba
      · subst hxy
        simp only [strLe, lt_irrefl, if_false] at hab hba
        rw [ih ys hab hba]
      · simp [strLe, asymm hxy, hxy] at hab

/-! ## The `metaJson` insertion sort is a key-sorted permutation -/

lemma insortKey_perm (p : Str × Str) (d : List (Str × Str)) :
    List.Perm (insortKey p d) (p :: d) := by
  induction d with
  | nil => exact List.Perm.refl _
  | cons q qs ih =>
    by_cases h : strLe p.1 q.1 = true
    · rw [insortKey, if_pos h]
    · rw [insortKey, if_neg h]
      exact (List.Perm.cons q ih).trans (List.Perm.swap p q qs)

lemma metaJson_perm (d : List (Str × Str)) : List.Perm (metaJson d) d := by
  induction d with
  | nil => exact List.Perm.refl _
  | cons p ps ih =>
    exact (insortKey_perm p (metaJson ps)).trans (List.Perm.cons p ih)

lemma insortKey_pairwise (p : Str × Str) (d : List (Str × Str))
    (hd : List.Pairwise keyLe d) : List.Pairwise keyLe (insortKey p d) := by
  induction d with
  | nil => simp [insortKey]
  | cons q qs ih =>
    rcases List.pairwise_cons.mp hd with ⟨hq, hqs⟩
    by_cases h : strLe p.1 q.1 = true
    · rw [insortKey, if_pos h]
      refine List.Pairwise.cons ?_ hd
      intro r hr
      rcases List.mem_cons.mp hr with hr | hr
      · rw [hr]; exact h
      · exact strLe_trans _ _ _ h (hq r hr)
    · rw [insortKey, if_neg h]
      refine List.Pairwise.cons ?_ (ih hqs)
      intro r hr
      rcases List.mem_cons.mp ((insortKey_perm p qs).mem_iff.mp hr) with hr | hr
      · rcases strLe_total p.1 q.1 with h' | h'
        · exact absurd h' h
        · rw [hr]; exact h'
      · exact hq r hr

lemma metaJson_pairwise (d : List (Str × Str)) :
    List.Pairwise keyLe (metaJson d) := by
  induction d with
  | nil => simp [metaJson]
  | cons p ps ih => exact insortKey_pairwise p (metaJson ps) ih

/-- Two key-sorted pair lists that are permutations of each other and have
duplicate-free keys are equal: serialization depends only on the mapping,
not on insertion order. -/
lemma sorted_pairs_unique (l₁ : List (Str × Str)) :
    ∀ (l₂ : List (Str × Str)), List.Perm l₁ l₂ →
      List.Pairwise keyLe l₁ → List.Pairwise keyLe l₂ →
      (l₁.map Prod.fst).Nodup → l₁ = l₂ := by
  induction l₁ with
  | nil =>
    intro l₂ hp _ _ _
    exact (hp.symm.eq_nil).symm
  | cons p t₁ ih =>
    intro l₂ hp h₁ h₂ hn
    cases l₂ with
    | nil => exact absurd hp.eq_nil (by simp)
    | cons q t₂ =>
      by_cases hpq : p = q
      · subst hpq
        rcases List.pairwise_cons.mp h₁ with ⟨-, h₁'⟩
        rcases List.pairwise_cons.mp h₂ with ⟨-, h₂'⟩
        have hn' : (t₁.map Prod.fst).Nodup :=
          (List.nodup_cons.mp (by simpa using hn)).2
        rw [ih t₂ hp.cons_inv h₁' h₂' hn']
      · have hpmem : p ∈ t₂ := by
          rcases List.mem_cons.mp (hp.mem_iff.mp (List.mem_cons_self p t₁)) with h | h
          · exact absurd h hpq
          · exact h
        have hqmem : q ∈ t₁ := by
          rcases List.mem_cons.mp (hp.symm.mem_iff.mp (List.mem_cons_self q t₂)) with h | h
          · exact absurd h.symm hpq
          · exact h
        have hle₁ : strLe p.1 q.1 = true := (List.pairwise_cons.mp h₁).1 q hqmem
        have hle₂ : strLe q.1 p.1 = true := (List.pairwise_cons.mp h₂).1 p hpmem
        have hkey : p.1 = q.1 := strLe_antisymm _ _ hle₁ hle₂
        exfalso
        have hnot : p.1 ∉ t₁.map Prod.fst :=
          (List.nodup_cons.mp (by simpa using hn)).1
        exact hnot (hkey ▸ List.mem_map_of_mem Prod.fst hqmem)

/-! ## The run's `titles` dict has duplicate-free keys -/

lemma mem_keys_dictUpdate {α : Type} (d : List (Str × α)) (k : Str) (v : α)
    (a : Str) :
    a ∈ (dictUpdate d k v).map Prod.fst ↔ a ∈ d.map Prod.fst ∨ a = k := by
  induction d with
  | nil => simp [dictUpdate]
  | cons kv rest ih =>
    obtain ⟨k', v'⟩ := kv
    by_cases h : k' = k
    · simp only [dictUpdate, if_pos h]
      subst h
      simp only [List.map_cons, List.mem_cons]
      tauto
    · simp only [dictUpdate, if_neg h]
      simp only [List.map_cons, List.mem_cons, ih]
      tauto

lemma nodup_keys_dictUpdate {α : Type} (d : List (Str × α)) (k : Str) (v : α)
    (h : (d.map Prod.fst).Nodup) :
    ((dictUpdate d k v).map Prod.fst).Nodup := by
  induction d with
  | nil => simp [dictUpdate]
  | cons kv rest ih =>
    obtain ⟨k', v'⟩ := kv
    rcases List.nodup_cons.mp h with ⟨hmem, hrest⟩
    by_cases hk : k' = k
    · simp only [dictUpdate, if_pos hk]
      exact List.nodup_cons.mpr ⟨hmem, hrest⟩
    · simp only [dictUpdate, if_neg hk]
      simp only [List.map_cons]
      refine List.nodup_cons.mpr ⟨?_, ih hrest⟩
      rw [mem_keys_dictUpdate]
      rintro (h | h)
      · exact hmem h
      · exact hk h

/-- The state a badge-loop step leaves behind, on either exit. -/
def exState (e : Except (Locals × RunState) (Locals × RunState)) : RunState :=
  match e with
  | .ok (_, s) => s
  | .error (_, s) => s

lemma fetchEntry_titles (outDir : Str) (http : Str → Response)
    (url fid t : Str) (s : RunState) :
    (fetchEntry outDir http url fid t s).titles = s.titles := by
  by_cases h1 : (dictGet s.files (targetPath outDir fid (format_title t))).isSome
  · simp [fetchEntry, h1]
  · by_cases h2 : (http url).status_code = 200 <;> simp [fetchEntry, h1, h2]

lemma finishEntry_titles_nodup (l : Locals) (s : RunState)
    (h : (s.titles.map Prod.fst).Nodup) :
    ((exState (finishEntry l s)).titles.map Prod.fst).Nodup := by
  cases hf : l.file_id with
  | none => cases ht : l.title <;> simpa [finishEntry, hf, ht, exState] using h
  | some fid =>
    cases ht : l.title with
    | none => simpa [finishEntry, hf, ht, exState] using h
    | some t =>
      simpa [finishEntry, hf, ht, exState] using
        nodup_keys_dictUpdate s.titles fid t h

lemma stepPdf_titles_nodup (verbose : Bool) (outDir : Str)
    (http : Str → Response) (l : Locals) (s : RunState) (pe : PdfElem)
    (h : (s.titles.map Prod.fst).Nodup) :
    ((exState (stepPdf verbose outDir http l s pe)).titles.map Prod.fst).Nodup := by
  unfold stepPdf
  by_cases h1 : pe.text = ("pdf".data)
  · rw [if_pos h1]
    by_cases h2 : (verbose && l.title.isNone) = true
    · rw [if_pos h2]
      exact h
    · rw [if_neg h2]
      cases ht : l.title with
      | none =>
        exact h
      | some t =>
        exact finishEntry_titles_nodup ⟨some t, some (pyStem (lastSeg pe.href))⟩
          (fetchEntry outDir http pe.href (pyStem (lastSeg pe.href)) t s)
          (by rw [fetchEntry_titles]; exact h)
  · rw [if_neg h1]
    exact finishEntry_titles_nodup _ _ h

lemma stepPdfList_titles_nodup (verbose : Bool) (outDir : Str)
    (http : Str → Response) :
    ∀ (pes : List PdfElem) (l : Locals) (s : RunState),
      (s.titles.map Prod.fst).Nodup →
      ((exState (stepPdfList verbose outDir http l s pes)).titles.map
        Prod.fst).Nodup
  | [], l, s, h => by simpa [stepPdfList, exState] using h
  | pe :: rest, l, s, h => by
    rw [stepPdfList]
    have hstep := stepPdf_titles_nodup verbose outDir http l s pe h
    cases hsp : stepPdf verbose outDir http l s pe with
    | ok ls =>
      rw [hsp] at hstep
      cases ls with
      | mk l' s' =>
        exact stepPdfList_titles_nodup verbose outDir http rest l' s'
          (by simpa [exState] using hstep)
    | error e =>
      rw [hsp] at hstep
      simpa [exState] using hstep

lemma processBlock_titles_nodup (verbose : Bool) (outDir : Str)
    (http : Str → Response) (acc : Locals × RunState) (b : Block)
    (h : (acc.2.titles.map Prod.fst).Nodup) :
    (((processBlock verbose outDir http acc b).2.titles.map Prod.fst)).Nodup := by
  have hlist := stepPdfList_titles_nodup verbose outDir http b.pdfElems
    (titleLoop acc.1 b.titleElems) acc.2 h
  cases hsp : stepPdfList verbose outDir http (titleLoop acc.1 b.titleElems)
      acc.2 b.pdfElems with
  | ok ls =>
    rw [hsp] at hlist
    cases ls with
    | mk l' s' =>
      simp only [processBlock, hsp]
      simpa [exState] using hlist
  | error e =>
    rw [hsp] at hlist
    cases e with
    | mk l' s' =>
      simp only [processBlock, hsp]
      simpa [exState] using hlist

lemma foldl_titles_nodup (verbose : Bool) (outDir : Str)
    (http : Str → Response) :
    ∀ (blocks : List Block) (acc : Locals × RunState),
      (acc.2.titles.map Prod.fst).Nodup →
      (((blocks.foldl (processBlock verbose outDir http) acc)).2.titles.map
        Prod.fst).Nodup
  | [], acc, h => by simpa using h
  | b :: bs, acc, h => by
    rw [List.foldl_cons]
    exact foldl_titles_nodup verbose outDir http bs _
      (processBlock_titles_nodup verbose outDir http acc b h)

lemma runDownload_titles_nodup (verbose : Bool) (bl : Option Str) (page : Page)
    (http : Str → Response) (fs0 : List (Str × List Nat)) (outDir : Str) :
    (((runDownload verbose bl page http fs0 outDir).titlesDict.map
      Prod.fst)).Nodup := by
  have hbody : ∀ blocks,
      (((runBody verbose outDir http fs0 blocks).titlesDict.map
        Prod.fst)).Nodup := by
    intro blocks
    simpa [runBody] using
      foldl_titles_nodup verbose outDir http blocks
        (⟨none, none⟩, ⟨fs0, [], [], false, []⟩) (by simp)
  cases bl with
  | none => exact hbody page.blocks
  | some b =>
    by_cases hb : b ∈ page.anchors
    · simpa [runDownload, hb] using hbody page.blocks
    · simp [runDownload, hb]

lemma runDownload_meta_eq (verbose : Bool) (bl : Option Str) (page : Page)
    (http : Str → Response) (fs0 : List (Str × List Nat)) (outDir : Str)
    (h : (runDownload verbose bl page http fs0 outDir).fatal = false) :
    (runDownload verbose bl page http fs0 outDir).meta =
      some (metaJson (runDownload verbose bl page http fs0 outDir).titlesDict) := by
  cases bl with
  | none => simp [runDownload, runBody]
  | some b =>
    by_cases hb : b ∈ page.anchors
    · simp [runDownload, hb, runBody]
    · simp [runDownload, hb] at h

/-! ## Claim C7 -/

/-- Claim C7 (confirmed): whenever `download` completes normally — whatever
mix of successes, skips and per-entry failures occurred — `meta.json` is
written (once, as the single dump after the loop), its pairs are sorted by
key under the code-point lexicographic order, its entries are exactly the
accumulated dict's entries with the title strings kept verbatim
(`ensure_ascii=False`: non-ASCII text is not escaped away), and its content
is the same for every insertion order of the same entries: any permutation
`d` of the accumulated dict serializes to the identical `meta.json`. -/
theorem meta_json_sorted_order_independent (verbose : Bool) (bl : Option Str)
    (page : Page) (http : Str → Response) (fs0 : List (Str × List Nat))
    (outDir : Str) (d : List (Str × Str))
    (hfatal : (runDownload verbose bl page http fs0 outDir).fatal = false)
    (hperm : List.Perm d (runDownload verbose bl page http fs0 outDir).titlesDict) :
    (runDownload verbose bl page http fs0 outDir).meta = some (metaJson d)
    ∧ List.Pairwise keyLe (metaJson d)
    ∧ List.Perm (metaJson d)
        (runDownload verbose bl page http fs0 outDir).titlesDict := by
  have hnodup := runDownload_titles_nodup verbose bl page http fs0 outDir
  have hdnodup : (d.map Prod.fst).Nodup :=
    ((hperm.map Prod.fst).nodup_iff).mpr hnodup
  have hmd : List.Perm (metaJson d)
      (runDownload verbose bl page http fs0 outDir).titlesDict :=
    (metaJson_perm d).trans hperm
  have heq : metaJson d =
      metaJson (runDownload verbose bl page http fs0 outDir).titlesDict :=
    sorted_pairs_unique _ _
      (hmd.trans (metaJson_perm _).symm)
      (metaJson_pairwise d) (metaJson_pairwise _)
      (((metaJson_perm d).map Prod.fst).nodup_iff.mpr hdnodup)
  refine ⟨?_, metaJson_pairwise d, hmd⟩
  rw [heq]
  exact runDownload_meta_eq verbose bl page http fs0 outDir hfatal

/-- Witness for `meta_json_sorted_order_independent`: a run whose two
entries are processed in the order `B`, `A`, compared against the reversed
insertion order `[A, B]` — `meta.json` comes out identical and key-sorted. -/
theorem meta_json_sorted_order_independent_witness :
    (runDownload false none
      (Page.mk
        [Block.mk [("TB".data)] [PdfElem.mk ("pdf".data) ("u/B.pdf".data)],
         Block.mk [("TA".data)] [PdfElem.mk ("pdf".data) ("u/A.pdf".data)]]
        [])
      (fun _ => Response.mk 200 []) [] ("o".data)).fatal = false
    ∧ List.Perm [(("A".data), ("TA".data)), (("B".data), ("TB".data))]
        (runDownload false none
          (Page.mk
            [Block.mk [("TB".data)] [PdfElem.mk ("pdf".data) ("u/B.pdf".data)],
             Block.mk [("TA".data)] [PdfElem.mk ("pdf".data) ("u/A.pdf".data)]]
            [])
          (fun _ => Response.mk 200 []) [] ("o".data)).titlesDict
    ∧ ((runDownload false none
          (Page.mk
            [Block.mk [("TB".data)] [PdfElem.mk ("pdf".data) ("u/B.pdf".data)],
             Block.mk [("TA".data)] [PdfElem.mk ("pdf".data) ("u/A.pdf".data)]]
            [])
          (fun _ => Response.mk 200 []) [] ("o".data)).meta
        = some (metaJson [(("A".data), ("TA".data)), (("B".data), ("TB".data))])
      ∧ List.Pairwise keyLe
          (metaJson [(("A".data), ("TA".data)), (("B".data), ("TB".data))])
      ∧ List.Perm
          (metaJson [(("A".data), ("TA".data)), (("B".data), ("TB".data))])
          (runDownload false none
            (Page.mk
              [Block.mk [("TB".data)] [PdfElem.mk ("pdf".data) ("u/B.pdf".data)],
               Block.mk [("TA".data)] [PdfElem.mk ("pdf".data) ("u/A.pdf".data)]]
              [])
            (fun _ => Response.mk 200 []) [] ("o".data)).titlesDict) :=
  ⟨by decide, by decide,
    meta_json_sorted_order_independent false none
      (Page.mk
        [Block.mk [("TB".data)] [PdfElem.mk ("pdf".data) ("u/B.pdf".data)],
         Block.mk [("TA".data)] [PdfElem.mk ("pdf".data) ("u/A.pdf".data)]]
        [])
      (fun _ => Response.mk 200 []) [] ("o".data)
      [(("A".data), ("TA".data)), (("B".data), ("TB".data))]
      (by decide) (by decide)⟩

end ACLAnthology
